import Mathlib

/-!
# Verification of the RAG CLI chatbot pipeline (`src/app.js`)

A shallow embedding of the orchestration pipeline in `app.js`:
chunking (`chunkText`), the Gemini embedding client (`embedWithGemini`),
the Qdrant collection/search client (`createCollection`, `searchQdrant`),
the generation client (`askGemini`), the interactive chat turn
(`startChat`'s line handler, modelled as `chatTurn`) and the startup
sequence (`main`).

Remote HTTP calls are modelled as oracle functions returning
`Except String <response-shape>`: `.error e` models an axios rejection
(network error, timeout, non-2xx status), `.ok r` models a resolved
response whose `data` is `r`.  JSON response shapes are modelled as
structures with `Option` fields, one `Option` per `?.` step the source
performs.  Numeric vector entries are opaque to the pipeline (never
inspected arithmetically), so they are modelled as `Int`.
-/

/-- Embedding vectors: ordered sequences of numbers.  The pipeline never
performs arithmetic on the entries, so they are modelled opaquely as `Int`. -/
abbrev EmbeddingVector := List Int

/-! ## Segmenter: `chunkText(text, size)` (app.js lines 21-27)

```js
function chunkText(text, size = 500) {
    const chunks = [];
    for (let i = 0; i < text.length; i += size) {
        chunks.push(text.slice(i, i + size));
    }
    return chunks;
}
```

The loop is modelled by structural recursion: each iteration emits
`text.slice(i, i + size)` (= `take size` of the remaining suffix) and
advances to the suffix `drop size`.  The `fuel` argument bounds the
iteration count; `text.length` iterations always suffice when
`0 < size`, because each iteration consumes at least one character of a
nonempty remainder.  For `size = 0` on nonempty text the source loop
never advances `i` and does not terminate; the model returns `[]` in
that case (the guard in `chunkText` below), which is unreachable for any
terminating execution of the source except `text = ""`, where the loop
body never runs and the source returns `[]` for every size — exactly
what the model returns. -/
def chunkTextLoop : Nat → List Char → Nat → List (List Char)
  | _, [], _ => []
  | 0, _ :: _, _ => []
  | fuel + 1, c :: cs, size =>
      (c :: cs).take size :: chunkTextLoop fuel ((c :: cs).drop size) size

/-- `chunkText(text, size)` on the character sequence of the input.
See `chunkTextLoop` for the loop model and the `size = 0` caveat. -/
def chunkText (text : List Char) (size : Nat) : List (List Char) :=
  if size = 0 then [] else chunkTextLoop text.length text size

/-- `chunkText` at the `String` level, as called by `main` on the file text. -/
def chunkTextS (text : String) (size : Nat) : List String :=
  (chunkText text.data size).map List.asString

/-! ## Embedding client: `embedWithGemini(texts)` (app.js lines 30-58) -/

/-- The `embedding` object of a Gemini embedContent response:
`res.data.embedding.values`, each level possibly absent. -/
structure EmbedValues where
  values : Option EmbeddingVector
deriving DecidableEq

/-- The `data` of a Gemini embedContent response: `res.data.embedding`,
possibly absent (`res.data.embedding?.values` in the source). -/
structure EmbedResponse where
  embedding : Option EmbedValues
deriving DecidableEq

/-- `res.data.embedding?.values`: the optional-chained access the source
validates before pushing. -/
def embedValuesOf (r : EmbedResponse) : Option EmbeddingVector :=
  r.embedding.bind EmbedValues.values

/-- `embedWithGemini(texts)`: one remote call per text, in order; the
first axios rejection or response lacking `embedding.values` aborts the
whole call with an error (the source's `try`/`catch` only logs and
rethrows, so the error propagates unchanged).  On success the vectors
are pushed in input order. -/
def embedWithGemini (call : String → Except String EmbedResponse) :
    List String → Except String (List EmbeddingVector)
  | [] => .ok []
  | t :: ts =>
    match call t with
    | .error e => .error e
    | .ok r =>
      match embedValuesOf r with
      | none => .error "Invalid response from Gemini API"
      | some v =>
        match embedWithGemini call ts with
        | .error e => .error e
        | .ok vs => .ok (v :: vs)

/-! ## Vector store client (app.js lines 61-140) -/

/-- An axios error as observed by the source: `error.message` and
`error.response?.status` (absent when the failure was not an HTTP
status, e.g. a network error or timeout). -/
structure HttpError where
  message : String
  status : Option Nat
deriving DecidableEq

/-- `createCollection(dim)` (app.js lines 61-88): issues the PUT
(modelled by the `put` oracle result) and treats a 409 status
(`error.response?.status === 409`, collection already exists) as
success; any other failure is rethrown. -/
def createCollection (put : Except HttpError Unit) : Except HttpError Unit :=
  match put with
  | .ok _ => .ok ()
  | .error e => if e.status = some 409 then .ok () else .error e

/-- A Qdrant PUT-collection provider: succeeds when the collection is
absent, responds HTTP 409 when it already exists.  Models two
consecutive `createCollection` calls with the same name and dim: the
first sees `alreadyExists = false`, the second `alreadyExists = true`. -/
def qdrantPutResponse (alreadyExists : Bool) : Except HttpError Unit :=
  if alreadyExists then .error ⟨"Request failed with status code 409", some 409⟩ else .ok ()

/-- An indexed point as built by `upsertToQdrant` (app.js lines 93-97):
`{ id, vector, payload: { text } }`. -/
structure Point where
  id : Nat
  vector : EmbeddingVector
  payloadText : String
deriving DecidableEq

/-- The point list `ids.map((id, i) => ({id, vector: embeddings[i],
payload: {text: texts[i]}}))` of `upsertToQdrant`; in every call the
three lists have equal length, modelled by zipping. -/
def mkPoints (ids : List Nat) (texts : List String)
    (embeddings : List EmbeddingVector) : List Point :=
  List.zipWith (fun id tv => Point.mk id tv.2 tv.1) ids (List.zip texts embeddings)

/-- A search result item's `payload` object, whose `text` may be absent. -/
structure QdrantPayload where
  text : Option String
deriving DecidableEq

/-- A search result item: `item.payload` may be absent. -/
structure SearchItem where
  payload : Option QdrantPayload
deriving DecidableEq

/-- The `data` of a Qdrant search response: `res.data?.result`,
possibly absent. -/
structure SearchResponse where
  result : Option (List SearchItem)
deriving DecidableEq

/-- `item.payload?.text`: the optional-chained access in the source's
`.filter`. -/
def itemText (it : SearchItem) : Option String :=
  it.payload.bind QdrantPayload.text

/-- The text an item contributes to the context, if any.  The source
filters on JS truthiness of `item.payload?.text`, which drops items
whose payload or text field is absent AND items whose text is the empty
string (`""` is falsy in JS). -/
def keptText (it : SearchItem) : Option String :=
  match itemText it with
  | none => none
  | some t => if t = "" then none else some t

/-- The literal separator of the source's join call. -/
def contextSeparator : String := "\n\n---\n\n"

/-- `searchQdrant(queryVector, topK)` (app.js lines 119-140): no
`try`/`catch`, so an axios rejection propagates; a resolved response
lacking `result` raises "Invalid search response from Qdrant"; otherwise
the kept payload texts are joined with the separator (`join` of the
empty list is `""`). -/
def searchQdrant (call : Except String SearchResponse) : Except String String :=
  match call with
  | .error e => .error e
  | .ok res =>
    match res.result with
    | none => .error "Invalid search response from Qdrant"
    | some items => .ok (String.intercalate contextSeparator (items.filterMap keptText))

/-- Joining written from the spec's words, for comparison with
`searchQdrant`: "a non-empty result yields the payload texts in the
provider's returned order joined with the literal separator" — i.e. the
join of every present payload text, with no further filtering. -/
def specJoinedContext (items : List SearchItem) : String :=
  String.intercalate contextSeparator (items.filterMap itemText)

/-! ## Generation client: `askGemini(query, context)` (app.js lines 143-182) -/

/-- One element of `parts`: `parts[0]?.text` may be absent. -/
structure GenPart where
  text : Option String
deriving DecidableEq

/-- `candidates[0].content`: its `parts` may be absent. -/
structure GenContent where
  parts : Option (List GenPart)
deriving DecidableEq

/-- One element of `candidates`: its `content` may be absent. -/
structure GenCandidate where
  content : Option GenContent
deriving DecidableEq

/-- The `data` of a generateContent response: `res.data?.candidates`,
possibly absent. -/
structure GenResponse where
  candidates : Option (List GenCandidate)
deriving DecidableEq

/-- `res.data?.candidates?.[0]?.content?.parts?.[0]?.text`. -/
def extractAnswer (r : GenResponse) : Option String :=
  ((((r.candidates.bind List.head?).bind
    GenCandidate.content).bind GenContent.parts).bind List.head?).bind GenPart.text

/-- The prompt template: `Context:\n${context}\n\nQuestion: ${query}\nAnswer:`. -/
def buildPrompt (query context : String) : String :=
  "Context:\n" ++ context ++ "\n\nQuestion: " ++ query ++ "\nAnswer:"

/-- The fixed user-facing fallback string returned from the `catch`
block of `askGemini` (the source literal additionally prefixes a cross
mark emoji and spells "couldn't"; the wording is irrelevant to every
claim, only its fixedness matters). -/
def fallbackAnswer : String :=
  "Sorry, I could not process your request. Please check your API key and network connection."

/-- `askGemini(query, context)`: builds the prompt, issues one
generation call, and extracts the nested answer text.  Everything is
inside `try`/`catch`, and the `catch` returns `fallbackAnswer`, so the
function never throws: an axios rejection, a missing nested path, and a
falsy (empty) extracted text all yield the fallback. -/
def askGemini (call : String → Except String GenResponse)
    (query context : String) : String :=
  match call (buildPrompt query context) with
  | .error _ => fallbackAnswer
  | .ok r =>
    match extractAnswer r with
    | none => fallbackAnswer
    | some a => if a = "" then fallbackAnswer else a

/-! ## Interactive loop: the `rl.on("line", ...)` handler (app.js lines 196-222) -/

/-- Outcome of one line of input in `startChat`'s handler.  `exit0`
models `rl.close()`, whose close handler calls `process.exit(0)`;
`reprompt` models the bare `rl.prompt()` on empty input; the other two
constructors re-prompt afterwards as well (the handler always returns to
`rl.prompt()`), so only `exit0` ends the session. -/
inductive TurnResult where
  | exit0
  | reprompt
  | errorReported (msg : String)
  | answered (answer : String)
deriving DecidableEq

/-- `line.trim()` modelled at the character level: drop leading and
trailing whitespace.  (Lean's own `String.trim` agrees on ASCII input
but is defined through byte-position auxiliaries the kernel cannot
evaluate, so the model works on the character list directly.) -/
def jsTrim (s : String) : String :=
  ⟨((s.data.dropWhile Char.isWhitespace).reverse.dropWhile Char.isWhitespace).reverse⟩

/-- `query.toLowerCase()` modelled at the character level. -/
def jsToLower (s : String) : String :=
  ⟨s.data.map Char.toLower⟩

/-- One iteration of the chat loop on input `line`: trim; `exit`
(case-insensitively) closes the interface; empty input re-prompts; any
other input embeds the query, searches Qdrant with
`queryEmbedding[0]`, and asks Gemini.  Errors thrown by embedding or
search are caught by the handler's `try`/`catch` and reported
(`errorReported`); `askGemini` never throws.  The three oracles stand
for the three remote services; `reprompt` and `exit0` are produced
before any oracle is consulted, i.e. with no network call. -/
def chatTurn (embedCall : String → Except String EmbedResponse)
    (searchCall : EmbeddingVector → Except String SearchResponse)
    (genCall : String → Except String GenResponse)
    (line : String) : TurnResult :=
  let query := jsTrim line
  if jsToLower query = "exit" then .exit0
  else if query = "" then .reprompt
  else
    match embedWithGemini embedCall [query] with
    | .error e => .errorReported e
    | .ok vs =>
      match searchQdrant (searchCall (vs.getD 0 [])) with
      | .error e => .errorReported e
      | .ok context => .answered (askGemini genCall query context)

/-! ## Startup: module-level env validation (app.js lines 16-18) and `main` (lines 231-256) -/

/-- An environment variable as seen through `process.env` plus JS
truthiness: absent (`undefined`) and the empty string are both falsy,
hence "missing" for the validation check `!GEMINI_API_KEY || ...`. -/
def isMissing : Option String → Bool
  | none => true
  | some s => s = ""

/-- The four required configuration values destructured from `process.env`. -/
structure Env where
  geminiApiKey : Option String
  qdrantApiKey : Option String
  qdrantHost : Option String
  collectionName : Option String
deriving DecidableEq

/-- The module-level validation condition (app.js lines 16-18). -/
def envInvalid (e : Env) : Bool :=
  isMissing e.geminiApiKey || isMissing e.qdrantApiKey ||
    isMissing e.qdrantHost || isMissing e.collectionName

/-- Process-level outcome of startup.  `envThrow`: the module-level
`throw` on missing configuration — an uncaught exception, the process
exits non-zero before `main` runs.  `connFatal`: the connectivity-check
failure is re-thrown from `main`'s first `try`/`catch`, outside the
second one — an unhandled promise rejection, the process exits non-zero.
`fatal`: the second `catch` calls `process.exit(1)`.  Only `interactive`
reaches `startChat()`. -/
inductive MainResult where
  | envThrow (msg : String)
  | connFatal (msg : String)
  | fatal (msg : String)
  | interactive
deriving DecidableEq

/-- `main()` (named `mainStartup` because Lean reserves `main`) preceded by the module-level environment validation: the
connectivity check (`GET /v1beta/models`), then reading `text.txt`,
chunking with size 500, assigning 1-based ids, creating the collection,
embedding all chunks, and upserting the points; any failure short of
`startChat()` ends the process with a non-zero exit code.  Each remote
interaction is an oracle; `readFileRes` is the result of
`fs.readFile("text.txt", "utf8")`. -/
def mainStartup (env : Env) (connCheck : Except String Unit)
    (readFileRes : Except String String)
    (collPut : Except HttpError Unit)
    (embedCall : String → Except String EmbedResponse)
    (upsertCall : List Point → Except String Unit) : MainResult :=
  if envInvalid env then .envThrow "Missing required environment variables"
  else
    match connCheck with
    | .error e => .connFatal ("Gemini API connection failed: " ++ e)
    | .ok _ =>
      match readFileRes with
      | .error e => .fatal e
      | .ok text =>
        let chunks := chunkTextS text 500
        let ids := (List.range chunks.length).map (· + 1)
        match createCollection collPut with
        | .error e => .fatal e.message
        | .ok _ =>
          match embedWithGemini embedCall chunks with
          | .error e => .fatal e
          | .ok embeddings =>
            match upsertCall (mkPoints ids chunks embeddings) with
            | .error e => .fatal e
            | .ok _ => .interactive

/-! ## Auxiliary predicates and concrete test oracles -/

/-- The embedding provider's call on `t` succeeded and carried vector `v`. -/
def embedOk (call : String → Except String EmbedResponse)
    (t : String) (v : EmbeddingVector) : Prop :=
  ∃ r, call t = .ok r ∧ embedValuesOf r = some v

/-- The embedding provider's call on `t` failed, or its response lacks
the numeric vector field. -/
def embedFails (call : String → Except String EmbedResponse) (t : String) : Prop :=
  (∃ e, call t = .error e) ∨ ∃ r, call t = .ok r ∧ embedValuesOf r = none

/-- A search result item whose payload carries the text `t`. -/
def textItem (t : String) : SearchItem :=
  ⟨some ⟨some t⟩⟩

/-- A search result item with no payload at all. -/
def textlessItem : SearchItem :=
  ⟨none⟩

/-- A concrete embedding oracle failing exactly on the text "bad". -/
def witnessEmbedCall : String → Except String EmbedResponse :=
  fun t => if t = "bad" then .error "boom" else .ok ⟨some ⟨some [1]⟩⟩

/-- A concrete embedding oracle that always rejects. -/
def failingEmbedCall : String → Except String EmbedResponse :=
  fun _ => .error "network down"

/-- A concrete embedding oracle that always succeeds. -/
def goodEmbedCall : String → Except String EmbedResponse :=
  fun _ => .ok ⟨some ⟨some [1]⟩⟩

/-- A concrete search oracle that always rejects. -/
def rejectingSearchCall : EmbeddingVector → Except String SearchResponse :=
  fun _ => .error "network down"

/-- A concrete generation oracle that always rejects. -/
def rejectingGenCall : String → Except String GenResponse :=
  fun _ => .error "network down"

/-- A concrete generation oracle whose response lacks `candidates`. -/
def emptyGenCall : String → Except String GenResponse :=
  fun _ => .ok ⟨none⟩

/-- A concrete upsert oracle that always succeeds. -/
def goodUpsertCall : List Point → Except String Unit :=
  fun _ => .ok ()

/-- A fully populated environment. -/
def goodEnv : Env :=
  ⟨some "key", some "key", some "host", some "coll"⟩

/-! ## Lemmas about the chunking loop -/

theorem chunkTextLoop_nil (fuel size : Nat) : chunkTextLoop fuel [] size = [] := by
  cases fuel <;> rfl

theorem chunkTextLoop_cons (fuel size : Nat) (c : Char) (cs : List Char) :
    chunkTextLoop (fuel + 1) (c :: cs) size =
      (c :: cs).take size :: chunkTextLoop fuel ((c :: cs).drop size) size := rfl

theorem chunkTextLoop_join (size : Nat) (hs : 0 < size) :
    ∀ (fuel : Nat) (text : List Char), text.length ≤ fuel →
      (chunkTextLoop fuel text size).flatten = text := by
  intro fuel
  induction fuel with
  | zero =>
    intro text ht
    have : text = [] := List.eq_nil_of_length_eq_zero (Nat.le_zero.mp ht)
    subst this
    simp [chunkTextLoop_nil]
  | succ n ih =>
    intro text ht
    cases text with
    | nil => simp [chunkTextLoop_nil]
    | cons c cs =>
      rw [chunkTextLoop_cons, List.flatten_cons, ih ((c :: cs).drop size) (by
        rw [List.length_drop]
        simp only [List.length_cons] at ht ⊢
        omega)]
      exact List.take_append_drop size (c :: cs)

theorem chunkTextLoop_fuel (size : Nat) (hs : 0 < size) :
    ∀ (fuel : Nat) (text : List Char) (fuel' : Nat),
      text.length ≤ fuel → text.length ≤ fuel' →
      chunkTextLoop fuel text size = chunkTextLoop fuel' text size := by
  intro fuel
  induction fuel with
  | zero =>
    intro text fuel' ht ht'
    have : text = [] := List.eq_nil_of_length_eq_zero (Nat.le_zero.mp ht)
    subst this
    simp [chunkTextLoop_nil]
  | succ n ih =>
    intro text fuel' ht ht'
    cases text with
    | nil => simp [chunkTextLoop_nil]
    | cons c cs =>
      cases fuel' with
      | zero => simp only [List.length_cons] at ht'; omega
      | succ m =>
        rw [chunkTextLoop_cons, chunkTextLoop_cons]
        congr 1
        exact ih ((c :: cs).drop size) m
          (by rw [List.length_drop]; simp only [List.length_cons] at ht ⊢; omega)
          (by rw [List.length_drop]; simp only [List.length_cons] at ht' ⊢; omega)

theorem chunkText_nil (size : Nat) : chunkText [] size = [] := by
  simp [chunkText, chunkTextLoop_nil]

theorem chunkText_cons (size : Nat) (hs : 0 < size) (c : Char) (cs : List Char) :
    chunkText (c :: cs) size =
      (c :: cs).take size :: chunkText ((c :: cs).drop size) size := by
  have h0 : size ≠ 0 := Nat.pos_iff_ne_zero.mp hs
  simp only [chunkText, if_neg h0]
  rw [show ((c :: cs).length = cs.length + 1) from rfl, chunkTextLoop_cons]
  congr 1
  exact chunkTextLoop_fuel size hs cs.length ((c :: cs).drop size) ((c :: cs).drop size).length
    (by rw [List.length_drop]; simp only [List.length_cons]; omega) le_rfl

theorem chunkText_ne_nil (size : Nat) (hs : 0 < size) (c : Char) (cs : List Char) :
    chunkText (c :: cs) size ≠ [] := by
  rw [chunkText_cons size hs]
  exact List.cons_ne_nil _ _

theorem chunkText_flatten (size : Nat) (hs : 0 < size) (text : List Char) :
    (chunkText text size).flatten = text := by
  have h0 : size ≠ 0 := Nat.pos_iff_ne_zero.mp hs
  simp only [chunkText, if_neg h0]
  exact chunkTextLoop_join size hs text.length text le_rfl

theorem chunkText_dropLast (size : Nat) (hs : 0 < size) (text : List Char) :
    ∀ l ∈ (chunkText text size).dropLast, l.length = size := by
  suffices H : ∀ (n : Nat) (text : List Char), text.length ≤ n →
      ∀ l ∈ (chunkText text size).dropLast, l.length = size from
    H text.length text le_rfl
  intro n
  induction n with
  | zero =>
    intro text ht
    have : text = [] := List.eq_nil_of_length_eq_zero (Nat.le_zero.mp ht)
    subst this
    simp [chunkText_nil]
  | succ n ih =>
    intro text ht l hl
    cases text with
    | nil => simp [chunkText_nil] at hl
    | cons c cs =>
      rw [chunkText_cons size hs] at hl
      rcases hd : (c :: cs).drop size with _ | ⟨d, ds⟩
      · rw [hd, chunkText_nil] at hl
        simp at hl
      · have hne : chunkText ((c :: cs).drop size) size ≠ [] := by
          rw [hd]; exact chunkText_ne_nil size hs d ds
        rw [List.dropLast_cons_of_ne_nil hne] at hl
        rcases List.mem_cons.mp hl with rfl | hmem
        · have hlt : size < (c :: cs).length := by
            by_contra hle
            push_neg at hle
            rw [List.drop_eq_nil_of_le hle] at hd
            exact List.cons_ne_nil d ds hd.symm
          rw [List.length_take]
          omega
        · exact ih ((c :: cs).drop size)
            (by rw [List.length_drop]; simp only [List.length_cons] at ht ⊢; omega) l hmem

theorem chunkText_getLast (size : Nat) (hs : 0 < size) (text : List Char)
    (htext : text ≠ []) :
    ∃ l, (chunkText text size).getLast? = some l ∧
      l.length = if text.length % size = 0 then size else text.length % size := by
  suffices H : ∀ (n : Nat) (text : List Char), text.length ≤ n → text ≠ [] →
      ∃ l, (chunkText text size).getLast? = some l ∧
        l.length = if text.length % size = 0 then size else text.length % size from
    H text.length text le_rfl htext
  intro n
  induction n with
  | zero =>
    intro text ht htext
    exact absurd (List.eq_nil_of_length_eq_zero (Nat.le_zero.mp ht)) htext
  | succ n ih =>
    intro text ht htext
    cases text with
    | nil => exact absurd rfl htext
    | cons c cs =>
      rw [chunkText_cons size hs]
      rcases hd : (c :: cs).drop size with _ | ⟨d, ds⟩
      · -- the whole text fits in one chunk: length ≤ size
        have hle : (c :: cs).length ≤ size := by
          have hlen := congrArg List.length hd
          rw [List.length_drop] at hlen
          simp only [List.length_nil] at hlen
          omega
        rw [chunkText_nil, List.take_of_length_le hle]
        refine ⟨c :: cs, rfl, ?_⟩
        rcases Nat.lt_or_ge (c :: cs).length size with hlt | hge
        · rw [Nat.mod_eq_of_lt hlt, if_neg (by simp)]
        · have heq : (c :: cs).length = size := le_antisymm hle hge
          rw [heq, Nat.mod_self, if_pos rfl]
      · have hdl := congrArg List.length hd
        rw [List.length_drop] at hdl
        simp only [List.length_cons] at hdl
        have hlt : size < (c :: cs).length := by
          simp only [List.length_cons]
          omega
        obtain ⟨l, hl, hlen⟩ := ih (d :: ds)
          (by simp only [List.length_cons] at ht ⊢; omega)
          (List.cons_ne_nil d ds)
        have hne : chunkText (d :: ds) size ≠ [] := chunkText_ne_nil size hs d ds
        obtain ⟨x, xs, hx⟩ := List.exists_cons_of_ne_nil hne
        refine ⟨l, ?_, ?_⟩
        · rw [hx, List.getLast?_cons_cons, ← hx]
          exact hl
        · have hmod : (c :: cs).length % size = (d :: ds).length % size := by
            conv_lhs => rw [show (c :: cs).length = size + (d :: ds).length by
              simp only [List.length_cons] at hdl ⊢; omega]
            rw [Nat.add_mod_left]
          rw [hmod]
          exact hlen

/-! ## Claim theorems -/

/-- C1: for every text `T` and size `S > 0`, `chunkText(T, S)` returns
an ordered sequence of substrings whose in-order concatenation
reproduces `T` exactly; every chunk except possibly the last has length
`S`; the last has length `len(T) mod S` (or `S` when `S` divides
`len(T)`); and `chunkText("", S)` is the empty sequence. -/
theorem C1_chunkText_partition (text : List Char) (size : Nat) (hs : 0 < size) :
    (chunkText text size).flatten = text ∧
    (∀ l ∈ (chunkText text size).dropLast, l.length = size) ∧
    (text ≠ [] → ∃ l, (chunkText text size).getLast? = some l ∧
      l.length = if text.length % size = 0 then size else text.length % size) ∧
    chunkText [] size = [] :=
  ⟨chunkText_flatten size hs text, chunkText_dropLast size hs text,
    chunkText_getLast size hs text, chunkText_nil size⟩

theorem C1_witness :
    0 < 2 ∧
    ((chunkText "abcde".data 2).flatten = "abcde".data ∧
     (∀ l ∈ (chunkText "abcde".data 2).dropLast, l.length = 2) ∧
     ("abcde".data ≠ [] → ∃ l, (chunkText "abcde".data 2).getLast? = some l ∧
       l.length = if "abcde".data.length % 2 = 0 then 2 else "abcde".data.length % 2) ∧
     chunkText [] 2 = []) :=
  ⟨by decide, C1_chunkText_partition "abcde".data 2 (by decide)⟩

/-- C2: the claim states that `chunkText(T, S)` rejects a size `S ≤ 0`
with an error.  The source performs no size validation at all: at the
failing input `T = ""`, `S = 0` the loop body never runs and the
function returns the empty array without any error (and for nonempty
`T` with `S ≤ 0` the loop index never advances, so the call diverges
instead of raising).  This theorem records the behaviour of the code at
the failing input. -/
theorem C2_chunkText_no_size_validation : chunkText [] 0 = [] := rfl

theorem embedWithGemini_nil (call : String → Except String EmbedResponse) :
    embedWithGemini call [] = .ok [] := rfl

theorem embedWithGemini_cons (call : String → Except String EmbedResponse)
    (t : String) (ts : List String) :
    embedWithGemini call (t :: ts) =
      match call t with
      | .error e => .error e
      | .ok r =>
        match embedValuesOf r with
        | none => .error "Invalid response from Gemini API"
        | some v =>
          match embedWithGemini call ts with
          | .error e => .error e
          | .ok vs => .ok (v :: vs) := rfl

/-- C3: a successful `embedWithGemini(texts)` call returns exactly one
embedding vector per input text, in matching input order (each returned
vector is the one carried by the provider's response for the text at
the same position); and if any single per-text call fails or its
response lacks the numeric vector field, the whole call aborts with an
error (so no partial results are ever returned). -/
theorem C3_embedWithGemini_batch (call : String → Except String EmbedResponse)
    (texts : List String) :
    (∀ vs, embedWithGemini call texts = .ok vs →
      vs.length = texts.length ∧ List.Forall₂ (embedOk call) texts vs) ∧
    ((∃ t ∈ texts, embedFails call t) →
      ∃ e, embedWithGemini call texts = .error e) := by
  induction texts with
  | nil =>
    constructor
    · intro vs h
      rw [embedWithGemini_nil] at h
      cases h
      exact ⟨rfl, List.Forall₂.nil⟩
    · rintro ⟨t, ht, -⟩
      simp at ht
  | cons t ts ih =>
    constructor
    · intro vs h
      rw [embedWithGemini_cons] at h
      cases hc : call t with
      | error e =>
        simp only [hc] at h
        exact Except.noConfusion h
      | ok r =>
        simp only [hc] at h
        cases hv : embedValuesOf r with
        | none =>
          simp only [hv] at h
          exact Except.noConfusion h
        | some v =>
          simp only [hv] at h
          cases hrec : embedWithGemini call ts with
          | error e =>
            simp only [hrec] at h
            exact Except.noConfusion h
          | ok vs' =>
            simp only [hrec] at h
            injection h with h
            subst h
            obtain ⟨hlen, hfa⟩ := ih.1 vs' hrec
            exact ⟨by simp [hlen], List.Forall₂.cons ⟨r, hc, hv⟩ hfa⟩
    · rintro ⟨u, hu, hbad⟩
      rcases List.mem_cons.mp hu with rfl | hmem
      · rcases hbad with ⟨e, he⟩ | ⟨r, hr, hv⟩
        · exact ⟨e, by simp only [embedWithGemini_cons, he]⟩
        · exact ⟨"Invalid response from Gemini API",
            by simp only [embedWithGemini_cons, hr, hv]⟩
      · obtain ⟨e, he⟩ := ih.2 ⟨u, hmem, hbad⟩
        cases hc : call t with
        | error e2 => exact ⟨e2, by simp only [embedWithGemini_cons, hc]⟩
        | ok r =>
          cases hv : embedValuesOf r with
          | none => exact ⟨"Invalid response from Gemini API",
              by simp only [embedWithGemini_cons, hc, hv]⟩
          | some v => exact ⟨e, by simp only [embedWithGemini_cons, hc, hv, he]⟩

theorem C3_witness :
    (([[1], [1]] : List EmbeddingVector).length = (["a", "b"] : List String).length ∧
      List.Forall₂ (embedOk witnessEmbedCall) ["a", "b"] [[1], [1]]) ∧
    ∃ e, embedWithGemini witnessEmbedCall ["a", "bad"] = .error e :=
  ⟨(C3_embedWithGemini_batch witnessEmbedCall ["a", "b"]).1 [[1], [1]] rfl,
   (C3_embedWithGemini_batch witnessEmbedCall ["a", "bad"]).2
     ⟨"bad", by simp, Or.inl ⟨"boom", rfl⟩⟩⟩

/-- C4: `askGemini` never propagates a failure: its return type is a
plain `String` (every branch of the source is inside the `try`, whose
`catch` returns the fixed fallback string), and both failure modes — a
rejected generation request and a resolved response missing the nested
`candidates[0].content.parts[0].text` path — produce exactly
`fallbackAnswer`.  Since the only way a turn could throw out of the
generation component is ruled out by the total return type, a
generation failure alone can never terminate the interactive session. -/
theorem C4_askGemini_never_propagates
    (call : String → Except String GenResponse) (query context : String) :
    ((∃ e, call (buildPrompt query context) = .error e) →
      askGemini call query context = fallbackAnswer) ∧
    (∀ r, call (buildPrompt query context) = .ok r → extractAnswer r = none →
      askGemini call query context = fallbackAnswer) := by
  constructor
  · rintro ⟨e, he⟩
    simp only [askGemini, he]
  · intro r hr hx
    simp only [askGemini, hr, hx]

theorem C4_witness :
    askGemini rejectingGenCall "q" "ctx" = fallbackAnswer ∧
    askGemini emptyGenCall "q" "ctx" = fallbackAnswer :=
  ⟨(C4_askGemini_never_propagates rejectingGenCall "q" "ctx").1 ⟨"network down", rfl⟩,
   (C4_askGemini_never_propagates emptyGenCall "q" "ctx").2 ⟨none⟩ rfl rfl⟩

/-- C5 counterexample: the claim says a non-empty result yields "the
payload texts in the provider's returned order joined with the literal
separator".  A response whose first item carries the payload text `""`
refutes this: joining the payload texts (`specJoinedContext`) gives
`"\n\n---\n\nhello"`, but the source's truthiness filter also drops the
empty-string text, so `searchQdrant` returns `"hello"`. -/
theorem C5_counterexample :
    searchQdrant (Except.ok ⟨some [textItem "", textItem "hello"]⟩) =
      Except.ok "hello" ∧
    specJoinedContext [textItem "", textItem "hello"] =
      "" ++ contextSeparator ++ "hello" ∧
    ("hello" : String) ≠ "" ++ contextSeparator ++ "hello" :=
  ⟨rfl, rfl, by decide⟩

theorem filterMap_keptText_textItem (ts : List String) (hts : ∀ t ∈ ts, t ≠ "") :
    (ts.map textItem).filterMap keptText = ts := by
  induction ts with
  | nil => rfl
  | cons t ts ih =>
    have hne : t ≠ "" := hts t (List.mem_cons_self t ts)
    simp only [List.map_cons, List.filterMap_cons]
    rw [show keptText (textItem t) = some t by
      simp [keptText, itemText, textItem, hne]]
    rw [ih fun x hx => hts x (List.mem_cons_of_mem t hx)]

/-- C5 (amended): `searchQdrant` raises a protocol error exactly when
the resolved provider response lacks the `result` field; an empty
result list is not an error and yields the empty context string; and a
non-empty result yields, of the returned items, those payload texts
that are present and non-empty, in the provider's returned order,
joined with the literal separator `"\n\n---\n\n"` (shown here for
responses whose items all carry non-empty texts, where the join covers
every item; the counterexample shows an empty text is dropped). -/
theorem C5_searchQdrant_contract (res : SearchResponse) (ts : List String)
    (hts : ∀ t ∈ ts, t ≠ "") :
    ((∃ e, searchQdrant (Except.ok res) = .error e) ↔ res.result = none) ∧
    searchQdrant (Except.ok ⟨some []⟩) = .ok "" ∧
    searchQdrant (Except.ok ⟨some (ts.map textItem)⟩) =
      .ok (String.intercalate contextSeparator ts) := by
  refine ⟨?_, rfl, ?_⟩
  · constructor
    · rintro ⟨e, he⟩
      cases hres : res.result with
      | none => rfl
      | some items =>
        simp only [searchQdrant, hres] at he
        exact Except.noConfusion he
    · intro hres
      refine ⟨"Invalid search response from Qdrant", ?_⟩
      simp only [searchQdrant, hres]
  · simp only [searchQdrant]
    rw [filterMap_keptText_textItem ts hts]

theorem C5_witness :
    ((∃ e, searchQdrant (Except.ok (⟨none⟩ : SearchResponse)) = .error e) ↔
      (⟨none⟩ : SearchResponse).result = none) ∧
    searchQdrant (Except.ok ⟨some []⟩) = .ok "" ∧
    searchQdrant (Except.ok ⟨some (["x", "y"].map textItem)⟩) =
      .ok (String.intercalate contextSeparator ["x", "y"]) :=
  C5_searchQdrant_contract ⟨none⟩ ["x", "y"] (by decide)

/-- C9: `createCollection` is idempotent with respect to an existing
collection: a fresh creation succeeds, a second creation that the
provider answers with HTTP 409 ("already exists") is treated as success
and returns without error, a bare 409 error is likewise success, and
any failure whose status is not 409 propagates unchanged. -/
theorem C9_createCollection_idempotent (m : String) (e : HttpError)
    (he : e.status ≠ some 409) :
    createCollection (qdrantPutResponse false) = .ok () ∧
    createCollection (qdrantPutResponse true) = .ok () ∧
    createCollection (Except.error ⟨m, some 409⟩) = .ok () ∧
    createCollection (Except.error e) = .error e := by
  refine ⟨rfl, rfl, rfl, ?_⟩
  simp only [createCollection, if_neg he]

theorem C9_witness :
    createCollection (qdrantPutResponse false) = .ok () ∧
    createCollection (qdrantPutResponse true) = .ok () ∧
    createCollection (Except.error ⟨"conflict", some 409⟩) = .ok () ∧
    createCollection (Except.error ⟨"timeout", none⟩) = .error ⟨"timeout", none⟩ :=
  C9_createCollection_idempotent "conflict" ⟨"timeout", none⟩ (by simp)

/-- C10 (implicit): `searchQdrant` silently drops any result item whose
payload lacks a text field: removing such an item from anywhere in a
well-formed result leaves the output unchanged, and a well-formed
response whose items all lack payload text yields `.ok ""` (the empty
context) rather than an error. -/
theorem C10_search_drops_textless_items (l1 l2 : List SearchItem)
    (bad : SearchItem) (hbad : itemText bad = none) :
    searchQdrant (Except.ok ⟨some (l1 ++ bad :: l2)⟩) =
      searchQdrant (Except.ok ⟨some (l1 ++ l2)⟩) ∧
    ((∀ it ∈ l1, itemText it = none) →
      searchQdrant (Except.ok ⟨some l1⟩) = .ok "") := by
  have hk : keptText bad = none := by simp [keptText, hbad]
  constructor
  · simp only [searchQdrant, List.filterMap_append, List.filterMap_cons, hk]
  · intro hall
    have hnil : l1.filterMap keptText = [] := by
      rw [List.filterMap_eq_nil_iff]
      intro it hit
      simp [keptText, hall it hit]
    simp only [searchQdrant, hnil]
    rfl

theorem C10_witness :
    (searchQdrant (Except.ok ⟨some ([textItem "kept"] ++ textlessItem :: [])⟩) =
      searchQdrant (Except.ok ⟨some ([textItem "kept"] ++ [])⟩)) ∧
    searchQdrant (Except.ok ⟨some [textlessItem]⟩) = .ok "" :=
  ⟨(C10_search_drops_textless_items [textItem "kept"] [] textlessItem rfl).1,
   (C10_search_drops_textless_items [textlessItem] [] textlessItem rfl).2
     (by intro it hit; simp at hit; subst hit; rfl)⟩

/-- C6: for every input line, with the three service oracles fully
arbitrary (so the outcome provably involves no network call): if the
trimmed line is empty the turn re-prompts, and if the trimmed line is
`exit` case-insensitively the turn closes the interface, which exits
the process with code 0. -/
theorem C6_exit_and_empty_input
    (embedCall : String → Except String EmbedResponse)
    (searchCall : EmbeddingVector → Except String SearchResponse)
    (genCall : String → Except String GenResponse) (line : String) :
    (jsTrim line = "" → chatTurn embedCall searchCall genCall line = .reprompt) ∧
    (jsToLower (jsTrim line) = "exit" →
      chatTurn embedCall searchCall genCall line = .exit0) := by
  constructor
  · intro h
    simp only [chatTurn]
    rw [h, if_neg (by decide : ¬(jsToLower "" = "exit")), if_pos rfl]
  · intro h
    simp only [chatTurn]
    rw [if_pos h]

theorem C6_witness :
    chatTurn failingEmbedCall rejectingSearchCall rejectingGenCall "   " =
      .reprompt ∧
    chatTurn failingEmbedCall rejectingSearchCall rejectingGenCall " ExIt " =
      .exit0 :=
  ⟨(C6_exit_and_empty_input failingEmbedCall rejectingSearchCall rejectingGenCall
      "   ").1 (by decide),
   (C6_exit_and_empty_input failingEmbedCall rejectingSearchCall rejectingGenCall
      " ExIt ").2 (by decide)⟩

/-- C7: a retrieval failure during a turn never terminates the session:
the only input whose turn ends the process is the `exit` command (first
conjunct), and on any other non-empty input an embedding error, or a
search error after a successful embedding, is caught and reported as
`errorReported` — after which the handler re-prompts. -/
theorem C7_retrieval_failure_nonfatal
    (embedCall : String → Except String EmbedResponse)
    (searchCall : EmbeddingVector → Except String SearchResponse)
    (genCall : String → Except String GenResponse) (line : String) :
    (chatTurn embedCall searchCall genCall line = .exit0 →
      jsToLower (jsTrim line) = "exit") ∧
    (jsToLower (jsTrim line) ≠ "exit" → jsTrim line ≠ "" →
      ((∃ e, embedWithGemini embedCall [jsTrim line] = .error e) →
        ∃ m, chatTurn embedCall searchCall genCall line = .errorReported m) ∧
      (∀ vs e, embedWithGemini embedCall [jsTrim line] = .ok vs →
        searchQdrant (searchCall (vs.getD 0 [])) = .error e →
        chatTurn embedCall searchCall genCall line = .errorReported e)) := by
  constructor
  · intro h
    by_contra hne
    simp only [chatTurn] at h
    rw [if_neg hne] at h
    by_cases he : jsTrim line = ""
    · rw [if_pos he] at h
      exact TurnResult.noConfusion h
    · rw [if_neg he] at h
      cases hemb : embedWithGemini embedCall [jsTrim line] with
      | error e =>
        simp only [hemb] at h
        exact TurnResult.noConfusion h
      | ok vs =>
        simp only [hemb] at h
        cases hse : searchQdrant (searchCall (vs.getD 0 [])) with
        | error e =>
          simp only [hse] at h
          exact TurnResult.noConfusion h
        | ok ctx =>
          simp only [hse] at h
          exact TurnResult.noConfusion h
  · intro hne he
    constructor
    · rintro ⟨e, hemb⟩
      refine ⟨e, ?_⟩
      simp only [chatTurn]
      rw [if_neg hne, if_neg he]
      simp only [hemb]
    · intro vs e hemb hse
      simp only [chatTurn]
      rw [if_neg hne, if_neg he]
      simp only [hemb, hse]

theorem C7_witness :
    jsToLower (jsTrim "exit") = "exit" ∧
    ∃ m, chatTurn failingEmbedCall rejectingSearchCall rejectingGenCall "hi" =
      .errorReported m :=
  ⟨(C7_retrieval_failure_nonfatal failingEmbedCall rejectingSearchCall
      rejectingGenCall "exit").1 (by decide),
   ((C7_retrieval_failure_nonfatal failingEmbedCall rejectingSearchCall
      rejectingGenCall "hi").2 (by decide) (by decide)).1 ⟨"network down", rfl⟩⟩

/-- C8: the startup sequence reaches the interactive loop only when
every stage succeeded — the four configuration values are present and
non-empty, the generation-provider connectivity check passed, the
document file was read, collection creation succeeded (or was a 409),
every chunk embedding succeeded, and the upsert succeeded.
Contrapositively, any failure in any of these stages means
`startChat()` is never entered; by the `MainResult` semantics
(`envThrow`: uncaught module-level exception; `connFatal`: unhandled
rejection; `fatal`: `process.exit(1)`) every such outcome terminates
the process with a non-zero exit code. -/
theorem C8_startup_failures_fatal (env : Env) (connCheck : Except String Unit)
    (readFileRes : Except String String) (collPut : Except HttpError Unit)
    (embedCall : String → Except String EmbedResponse)
    (upsertCall : List Point → Except String Unit) :
    mainStartup env connCheck readFileRes collPut embedCall upsertCall =
        .interactive →
      envInvalid env = false ∧ connCheck = .ok () ∧
      ∃ text, readFileRes = .ok text ∧ createCollection collPut = .ok () ∧
        ∃ embeddings,
          embedWithGemini embedCall (chunkTextS text 500) = .ok embeddings ∧
          upsertCall (mkPoints
            ((List.range (chunkTextS text 500).length).map (· + 1))
            (chunkTextS text 500) embeddings) = .ok () := by
  intro h
  simp only [mainStartup] at h
  by_cases henv : envInvalid env = true
  · rw [if_pos henv] at h
    exact MainResult.noConfusion h
  · rw [if_neg henv] at h
    refine ⟨by simpa using henv, ?_⟩
    cases connCheck with
    | error e => exact MainResult.noConfusion h
    | ok u =>
      cases u
      refine ⟨rfl, ?_⟩
      cases readFileRes with
      | error e => exact MainResult.noConfusion h
      | ok text =>
        refine ⟨text, rfl, ?_⟩
        cases hcc : createCollection collPut with
        | error e =>
          simp only [hcc] at h
          exact MainResult.noConfusion h
        | ok u2 =>
          cases u2
          simp only [hcc] at h
          refine ⟨rfl, ?_⟩
          cases hemb : embedWithGemini embedCall (chunkTextS text 500) with
          | error e =>
            simp only [hemb] at h
            exact MainResult.noConfusion h
          | ok embeddings =>
            simp only [hemb] at h
            cases hup : upsertCall (mkPoints
                ((List.range (chunkTextS text 500).length).map (· + 1))
                (chunkTextS text 500) embeddings) with
            | error e =>
              simp only [hup] at h
              exact MainResult.noConfusion h
            | ok u3 =>
              cases u3
              exact ⟨embeddings, rfl, hup⟩

theorem C8_witness :
    envInvalid goodEnv = false ∧ (Except.ok () : Except String Unit) = .ok () ∧
    ∃ text, (Except.ok "hi" : Except String String) = .ok text ∧
      createCollection (Except.ok ()) = .ok () ∧
      ∃ embeddings,
        embedWithGemini goodEmbedCall (chunkTextS text 500) = .ok embeddings ∧
        goodUpsertCall (mkPoints
          ((List.range (chunkTextS text 500).length).map (· + 1))
          (chunkTextS text 500) embeddings) = .ok () :=
  C8_startup_failures_fatal goodEnv (.ok ()) (.ok "hi") (.ok ()) goodEmbedCall
    goodUpsertCall (by decide)
